import Mathlib

/-!
Verification of the emre-bot trading core against its specification.

The Python source is shallowly embedded: prices and times are exact
rationals, Python dicts are association lists with replace-or-append
insertion, and fallible operations return `Option`.  `float` formatting
with a fixed number of decimals followed by re-parsing is modelled as
rounding to that number of decimal places; Python rounds decimal ties to
even, which `roundHalfEven` reproduces (no statement below exercises an
exact decimal tie).
-/

/-- Round-to-nearest integer, ties to even, as Python `round` does. -/
def roundHalfEven (x : ℚ) : ℤ :=
  if x - (⌊x⌋ : ℚ) < 1 / 2 then ⌊x⌋
  else if 1 / 2 < x - (⌊x⌋ : ℚ) then ⌊x⌋ + 1
  else if ⌊x⌋ % 2 = 0 then ⌊x⌋ else ⌊x⌋ + 1

/-- Rounding to `n` decimal places, the model of Python `round(x, n)`
and of formatting with `n` decimals followed by `float()` parsing. -/
def roundTo (n : ℕ) (x : ℚ) : ℚ :=
  (roundHalfEven (x * 10 ^ n) : ℚ) / 10 ^ n

theorem roundHalfEven_ge_floor (x : ℚ) : ⌊x⌋ ≤ roundHalfEven x := by
  unfold roundHalfEven
  split_ifs <;> omega

theorem roundHalfEven_le_floor_add_one (x : ℚ) : roundHalfEven x ≤ ⌊x⌋ + 1 := by
  unfold roundHalfEven
  split_ifs <;> omega

theorem roundHalfEven_mono {x y : ℚ} (h : x ≤ y) :
    roundHalfEven x ≤ roundHalfEven y := by
  rcases lt_or_eq_of_le (Int.floor_mono h) with hf | hf
  · calc roundHalfEven x ≤ ⌊x⌋ + 1 := roundHalfEven_le_floor_add_one x
    _ ≤ ⌊y⌋ := by omega
    _ ≤ roundHalfEven y := roundHalfEven_ge_floor y
  · unfold roundHalfEven
    rw [hf]
    have hxy : x - (⌊y⌋ : ℚ) ≤ y - (⌊y⌋ : ℚ) := by linarith
    split_ifs <;> first | omega | linarith

theorem roundHalfEven_intCast (z : ℤ) : roundHalfEven (z : ℚ) = z := by
  unfold roundHalfEven
  rw [Int.floor_intCast]
  have h2 : (z : ℚ) - (z : ℚ) = 0 := by ring
  rw [h2]
  norm_num

theorem roundTo_mono (n : ℕ) {x y : ℚ} (h : x ≤ y) : roundTo n x ≤ roundTo n y := by
  unfold roundTo
  have hp : (0 : ℚ) < 10 ^ n := by positivity
  have hm : x * 10 ^ n ≤ y * 10 ^ n := by
    exact mul_le_mul_of_nonneg_right h (le_of_lt hp)
  have := roundHalfEven_mono hm
  exact (div_le_div_right hp).mpr (by exact_mod_cast this)

/-! ### Association lists: the model of Python `dict` -/

/-- `d[k] = v` on an association list: replace the existing binding or
append a new one (Python dict assignment). -/
def dictInsert {α : Type} (l : List (String × α)) (k : String) (v : α) :
    List (String × α) :=
  match l with
  | [] => [(k, v)]
  | (k', v') :: t => if k' = k then (k, v) :: t else (k', v') :: dictInsert t k v

/-- `d.get(k)` on an association list. -/
def dictGet {α : Type} (l : List (String × α)) (k : String) : Option α :=
  match l with
  | [] => none
  | (k', v') :: t => if k' = k then some v' else dictGet t k

/-- `d.pop(k, None)` on an association list. -/
def dictRemove {α : Type} (l : List (String × α)) (k : String) :
    List (String × α) :=
  match l with
  | [] => []
  | (k', v') :: t => if k' = k then t else (k', v') :: dictRemove t k

theorem dictGet_insert_self {α : Type} (l : List (String × α)) (k : String) (v : α) :
    dictGet (dictInsert l k v) k = some v := by
  induction l with
  | nil => simp [dictInsert, dictGet]
  | cons h t ih =>
    obtain ⟨k', v'⟩ := h
    by_cases hk : k' = k
    · simp [dictInsert, dictGet, hk]
    · simp [dictInsert, dictGet, hk, ih]

/-! ### InventorySkewStrategy (`src/inventory_skew_strategy.py`) -/

/-- Minimum valid Polymarket price (`InventorySkewStrategy.MIN_PRICE`). -/
def MIN_PRICE : ℚ := 1 / 100

/-- Maximum valid Polymarket price (`InventorySkewStrategy.MAX_PRICE`). -/
def MAX_PRICE : ℚ := 99 / 100

/-- Constructor parameters of `InventorySkewStrategy`. -/
structure QuoteParams where
  target_spread : ℚ
  skew_factor : ℚ
  max_inventory : ℤ
  min_spread : ℚ
  max_spread : ℚ
deriving DecidableEq

/-- The dict returned by `InventorySkewStrategy.calculate_quotes`. -/
structure QuoteOutput where
  bid_price : ℚ
  ask_price : ℚ
  fair_value : ℚ
  inventory_adjustment : ℚ
  should_stop_buying : Bool
  should_stop_selling : Bool
  mid_price : ℚ
  spread : ℚ
  reason : Option String
deriving DecidableEq

/-- `InventorySkewStrategy._clamp_price`. -/
def clampPrice (price : ℚ) : ℚ :=
  max MIN_PRICE (min MAX_PRICE price)

/-- `InventorySkewStrategy._create_invalid_quote_response`. -/
def createInvalidQuoteResponse (mid_price inventory_adjustment : ℚ)
    (reason : String) : QuoteOutput :=
  ⟨0, 0, 0, inventory_adjustment, true, true, mid_price, 0, some reason⟩

/-- `InventorySkewStrategy._validate_inputs`.  The Python `None` check on
the inputs has no counterpart: the embedding passes prices as rationals. -/
def validateInputs (best_bid best_ask : ℚ) (current_inventory : ℤ) :
    Option QuoteOutput :=
  if best_bid ≤ 0 ∨ 1 ≤ best_bid then
    some (createInvalidQuoteResponse 0 0 "Invalid best_bid: must be in range 0 < p < 1")
  else if best_ask ≤ 0 ∨ 1 ≤ best_ask then
    some (createInvalidQuoteResponse 0 0 "Invalid best_ask: must be in range 0 < p < 1")
  else if best_ask ≤ best_bid then
    some (createInvalidQuoteResponse 0 0 "Invalid market: best_bid >= best_ask")
  else
    none

/-- Steps 6-7 of `calculate_quotes`: rounding and the inventory-limit
flags, applied to the constrained bid/ask. -/
def finishQuote (P : QuoteParams) (mid_price inventory_adjustment fair_value : ℚ)
    (current_inventory : ℤ) (bid ask : ℚ) : QuoteOutput :=
  let bid_price := roundTo 2 bid
  let ask_price := roundTo 2 ask
  ⟨bid_price, ask_price, roundTo 4 fair_value, inventory_adjustment,
    decide (P.max_inventory ≤ |current_inventory| ∧ 0 < current_inventory),
    decide (P.max_inventory ≤ |current_inventory| ∧ current_inventory < 0),
    mid_price, roundTo 4 (ask_price - bid_price), none⟩

/-- Steps 1-7 of `calculate_quotes` after input validation. -/
def quoteCore (P : QuoteParams) (best_bid best_ask : ℚ)
    (current_inventory : ℤ) : QuoteOutput :=
  let mid_price := (best_bid + best_ask) / 2
  let inventory_adjustment := (current_inventory : ℚ) * P.skew_factor
  let fair_value := mid_price - inventory_adjustment
  let raw_bid := fair_value - P.target_spread / 2
  let raw_ask := fair_value + P.target_spread / 2
  let bid0 := clampPrice raw_bid
  let ask0 := clampPrice raw_ask
  if ask0 ≤ bid0 then
    let mid := (bid0 + ask0) / 2
    let bid1 := max MIN_PRICE (mid - P.min_spread / 2)
    let ask1 := min MAX_PRICE (mid + P.min_spread / 2)
    if ask1 ≤ bid1 then
      createInvalidQuoteResponse mid_price inventory_adjustment
        "Bid >= Ask after constraint adjustments"
    else
      finishQuote P mid_price inventory_adjustment fair_value current_inventory bid1 ask1
  else
    finishQuote P mid_price inventory_adjustment fair_value current_inventory bid0 ask0

/-- `InventorySkewStrategy.calculate_quotes`. -/
def calculate_quotes (P : QuoteParams) (best_bid best_ask : ℚ)
    (current_inventory : ℤ) : QuoteOutput :=
  match validateInputs best_bid best_ask current_inventory with
  | some r => r
  | none => quoteCore P best_bid best_ask current_inventory

theorem clampPrice_mem (p : ℚ) :
    MIN_PRICE ≤ clampPrice p ∧ clampPrice p ≤ MAX_PRICE := by
  unfold clampPrice
  constructor
  · exact le_max_left _ _
  · exact max_le (by norm_num [MIN_PRICE, MAX_PRICE]) (min_le_left _ _)

theorem recenter_lt (ms : ℚ) (hms : 0 < ms) (mid : ℚ)
    (hlo : MIN_PRICE ≤ mid) (hhi : mid ≤ MAX_PRICE) :
    max MIN_PRICE (mid - ms / 2) < min MAX_PRICE (mid + ms / 2) := by
  have hmm : MIN_PRICE < MAX_PRICE := by norm_num [MIN_PRICE, MAX_PRICE]
  apply max_lt
  · exact lt_min hmm (by linarith)
  · exact lt_min (by linarith) (by linarith)

theorem roundTo_two_MIN : roundTo 2 MIN_PRICE = MIN_PRICE := by
  norm_num [roundTo, roundHalfEven, MIN_PRICE]

theorem roundTo_two_MAX : roundTo 2 MAX_PRICE = MAX_PRICE := by
  norm_num [roundTo, roundHalfEven, MAX_PRICE]

theorem finishQuote_bounds (P : QuoteParams) (mp adj fv : ℚ) (inv : ℤ) (b a : ℚ)
    (h1 : MIN_PRICE ≤ b) (h2 : b ≤ a) (h3 : a ≤ MAX_PRICE) :
    (finishQuote P mp adj fv inv b a).reason = none ∧
    MIN_PRICE ≤ (finishQuote P mp adj fv inv b a).bid_price ∧
    (finishQuote P mp adj fv inv b a).bid_price ≤ (finishQuote P mp adj fv inv b a).ask_price ∧
    (finishQuote P mp adj fv inv b a).ask_price ≤ MAX_PRICE := by
  refine ⟨by simp [finishQuote], ?_, ?_, ?_⟩
  · simp only [finishQuote]
    calc MIN_PRICE = roundTo 2 MIN_PRICE := roundTo_two_MIN.symm
    _ ≤ roundTo 2 b := roundTo_mono 2 h1
  · simp only [finishQuote]
    exact roundTo_mono 2 h2
  · simp only [finishQuote]
    calc roundTo 2 a ≤ roundTo 2 MAX_PRICE := roundTo_mono 2 h3
    _ = MAX_PRICE := roundTo_two_MAX

theorem quoteCore_bounds (P : QuoteParams) (hms : 0 < P.min_spread)
    (bb ba : ℚ) (inv : ℤ) :
    (quoteCore P bb ba inv).reason = none ∧
    MIN_PRICE ≤ (quoteCore P bb ba inv).bid_price ∧
    (quoteCore P bb ba inv).bid_price ≤ (quoteCore P bb ba inv).ask_price ∧
    (quoteCore P bb ba inv).ask_price ≤ MAX_PRICE := by
  simp only [quoteCore]
  split_ifs with h1 h2
  · exfalso
    have hb0 := clampPrice_mem ((bb + ba) / 2 - (inv : ℚ) * P.skew_factor - P.target_spread / 2)
    have ha0 := clampPrice_mem ((bb + ba) / 2 - (inv : ℚ) * P.skew_factor + P.target_spread / 2)
    have hmid_lo : MIN_PRICE ≤
        (clampPrice ((bb + ba) / 2 - (inv : ℚ) * P.skew_factor - P.target_spread / 2) +
         clampPrice ((bb + ba) / 2 - (inv : ℚ) * P.skew_factor + P.target_spread / 2)) / 2 := by
      linarith [hb0.1, ha0.1]
    have hmid_hi :
        (clampPrice ((bb + ba) / 2 - (inv : ℚ) * P.skew_factor - P.target_spread / 2) +
         clampPrice ((bb + ba) / 2 - (inv : ℚ) * P.skew_factor + P.target_spread / 2)) / 2 ≤
        MAX_PRICE := by
      linarith [hb0.2, ha0.2]
    exact absurd h2 (not_le.mpr (recenter_lt P.min_spread hms _ hmid_lo hmid_hi))
  · apply finishQuote_bounds
    · exact le_max_left _ _
    · exact le_of_lt (not_le.mp h2)
    · exact min_le_left _ _
  · have hb0 := clampPrice_mem ((bb + ba) / 2 - (inv : ℚ) * P.skew_factor - P.target_spread / 2)
    have ha0 := clampPrice_mem ((bb + ba) / 2 - (inv : ℚ) * P.skew_factor + P.target_spread / 2)
    exact finishQuote_bounds P _ _ _ _ _ _ hb0.1 (le_of_lt (not_le.mp h1)) ha0.2

theorem validateInputs_eq_none (bb ba : ℚ) (inv : ℤ)
    (hb : 0 < bb) (hba : bb < ba) (ha : ba < 1) :
    validateInputs bb ba inv = none := by
  have h1 : ¬(bb ≤ 0 ∨ 1 ≤ bb) := by push_neg; exact ⟨hb, by linarith⟩
  have h2 : ¬(ba ≤ 0 ∨ 1 ≤ ba) := by push_neg; exact ⟨by linarith, ha⟩
  have h3 : ¬ ba ≤ bb := not_le.mpr hba
  unfold validateInputs
  rw [if_neg h1, if_neg h2, if_neg h3]

/-- Claim C1 (amended): for inputs `0 < best_bid < best_ask < 1` and any
integer inventory, `calculate_quotes` returns a quote with `reason = None`
whose prices satisfy `0.01 ≤ bid_price ≤ ask_price ≤ 0.99`.  The strict
inequality `bid_price < ask_price` of the original claim can fail: the
`bid >= ask` repair runs before the 2-decimal rounding, so rounding can
collapse the two prices (see the counterexample). -/
theorem calculate_quotes_bounds_amended (P : QuoteParams) (hms : 0 < P.min_spread)
    (best_bid best_ask : ℚ) (inv : ℤ)
    (hb : 0 < best_bid) (hba : best_bid < best_ask) (ha : best_ask < 1) :
    (calculate_quotes P best_bid best_ask inv).reason = none ∧
    MIN_PRICE ≤ (calculate_quotes P best_bid best_ask inv).bid_price ∧
    (calculate_quotes P best_bid best_ask inv).bid_price ≤
      (calculate_quotes P best_bid best_ask inv).ask_price ∧
    (calculate_quotes P best_bid best_ask inv).ask_price ≤ MAX_PRICE := by
  have hcq : calculate_quotes P best_bid best_ask inv = quoteCore P best_bid best_ask inv := by
    unfold calculate_quotes
    rw [validateInputs_eq_none best_bid best_ask inv hb hba ha]
  rw [hcq]
  exact quoteCore_bounds P hms best_bid best_ask inv

/-- Witness for C1's amended theorem at
`target_spread=0.02, skew_factor=0.0001, best_bid=0.48, best_ask=0.50`. -/
theorem calculate_quotes_bounds_amended_witness :
    (calculate_quotes ⟨1/50, 1/10000, 1000, 1/100, 1/10⟩ (12/25) (1/2) 0).reason = none ∧
    MIN_PRICE ≤ (calculate_quotes ⟨1/50, 1/10000, 1000, 1/100, 1/10⟩ (12/25) (1/2) 0).bid_price ∧
    (calculate_quotes ⟨1/50, 1/10000, 1000, 1/100, 1/10⟩ (12/25) (1/2) 0).bid_price ≤
      (calculate_quotes ⟨1/50, 1/10000, 1000, 1/100, 1/10⟩ (12/25) (1/2) 0).ask_price ∧
    (calculate_quotes ⟨1/50, 1/10000, 1000, 1/100, 1/10⟩ (12/25) (1/2) 0).ask_price ≤ MAX_PRICE :=
  calculate_quotes_bounds_amended ⟨1/50, 1/10000, 1000, 1/100, 1/10⟩ (by norm_num)
    (12/25) (1/2) 0 (by norm_num) (by norm_num) (by norm_num)

/-- Counterexample to claim C1 as stated: with
`target_spread=0.02, skew_factor=0.0001, min_spread=0.01,
best_bid=0.96, best_ask=0.98, inventory=-270` the fair value is `0.997`,
the raw bid `0.987` stays below the clamped ask `0.99`, and 2-decimal
rounding then lifts the bid to `0.99`: the result has `reason = None`
together with `bid_price = ask_price = 0.99`. -/
theorem calculate_quotes_strict_claim_counterexample :
    (calculate_quotes ⟨1/50, 1/10000, 1000, 1/100, 1/10⟩ (24/25) (49/50) (-270)).reason = none ∧
    (calculate_quotes ⟨1/50, 1/10000, 1000, 1/100, 1/10⟩ (24/25) (49/50) (-270)).bid_price =
      (calculate_quotes ⟨1/50, 1/10000, 1000, 1/100, 1/10⟩ (24/25) (49/50) (-270)).ask_price := by
  norm_num [calculate_quotes, validateInputs, quoteCore, finishQuote, clampPrice,
    createInvalidQuoteResponse, roundTo, roundHalfEven, MIN_PRICE, MAX_PRICE]

/-- Claim C6: with `target_spread=0.02` and `skew_factor=0.0001` (any
`max_inventory`), `calculate_quotes(0.48, 0.50, 0)` yields
`fair_value=0.49, bid=0.48, ask=0.50`, and `calculate_quotes(0.48, 0.50, 500)`
yields `adjustment=0.05, fair_value=0.44, bid=0.43, ask=0.45`. -/
theorem calculate_quotes_scenarios_A_B (mi : ℤ) :
    (calculate_quotes ⟨1/50, 1/10000, mi, 1/100, 1/10⟩ (12/25) (1/2) 0).fair_value = 49/100 ∧
    (calculate_quotes ⟨1/50, 1/10000, mi, 1/100, 1/10⟩ (12/25) (1/2) 0).bid_price = 12/25 ∧
    (calculate_quotes ⟨1/50, 1/10000, mi, 1/100, 1/10⟩ (12/25) (1/2) 0).ask_price = 1/2 ∧
    (calculate_quotes ⟨1/50, 1/10000, mi, 1/100, 1/10⟩ (12/25) (1/2) 500).inventory_adjustment = 1/20 ∧
    (calculate_quotes ⟨1/50, 1/10000, mi, 1/100, 1/10⟩ (12/25) (1/2) 500).fair_value = 11/25 ∧
    (calculate_quotes ⟨1/50, 1/10000, mi, 1/100, 1/10⟩ (12/25) (1/2) 500).bid_price = 43/100 ∧
    (calculate_quotes ⟨1/50, 1/10000, mi, 1/100, 1/10⟩ (12/25) (1/2) 500).ask_price = 9/20 := by
  norm_num [calculate_quotes, validateInputs, quoteCore, finishQuote, clampPrice,
    createInvalidQuoteResponse, roundTo, roundHalfEven, MIN_PRICE, MAX_PRICE]

/-! ### Order books (`src/websocket_manager.py`, `OrderbookSnapshot`) -/

/-- One parsed price level (`price`/`size` floats). -/
structure OrderLevel where
  price : ℚ
  size : ℚ
deriving DecidableEq

/-- A cached orderbook snapshot for one asset. -/
structure OrderbookSnapshot where
  asset_id : String
  bids : List OrderLevel
  asks : List OrderLevel
deriving DecidableEq

/-- The `WebSocketManager.orderbooks` dict, asset id to snapshot. -/
abbrev Orderbooks := List (String × OrderbookSnapshot)

/-- `WebSocketManager.get_best_prices`: best (first) ask of each book;
`none` when either book or either best ask is missing. -/
def get_best_prices (books : Orderbooks) (yes_token_id no_token_id : String) :
    Option (ℚ × ℚ) :=
  match dictGet books yes_token_id, dictGet books no_token_id with
  | some yes_book, some no_book =>
    match yes_book.asks.head?, no_book.asks.head? with
    | some yes_ask, some no_ask => some (yes_ask.price, no_ask.price)
    | _, _ => none
  | _, _ => none

/-! ### ArbitrageEngine (`src/arbitrage_engine.py`) -/

/-- The market identity record used by the engine. -/
structure Market where
  condition_id : String
  yes_token_id : String
  no_token_id : String
  question : String
deriving DecidableEq

/-- The configuration fields the engine reads. -/
structure ArbConfig where
  trigger_threshold : ℚ
  min_profit_threshold : ℚ
  opportunity_cooldown : ℚ
  fixed_investment_amount : ℚ
deriving DecidableEq

/-- `ArbitrageOpportunity` dataclass. -/
structure ArbitrageOpportunity where
  market : Market
  yes_price : ℚ
  no_price : ℚ
  implied_sum : ℚ
  expected_profit_pct : ℚ
  yes_size : ℚ
  no_size : ℚ
  total_investment : ℚ
  timestamp : ℚ
deriving DecidableEq

/-- The `last_opportunity_time` dict, condition id to detection time. -/
abbrev LastOppMap := List (String × ℚ)

/-- The opportunity record built in the success branch of
`check_arbitrage_opportunity`. -/
def mkOpportunity (cfg : ArbConfig) (m : Market) (yes_ask no_ask now : ℚ) :
    ArbitrageOpportunity :=
  ⟨m, yes_ask, no_ask, yes_ask + no_ask,
    (1 - (yes_ask + no_ask)) / (yes_ask + no_ask),
    (cfg.fixed_investment_amount * (yes_ask / (yes_ask + no_ask))) / yes_ask,
    (cfg.fixed_investment_amount * (no_ask / (yes_ask + no_ask))) / no_ask,
    cfg.fixed_investment_amount, now⟩

/-- `ArbitrageEngine.check_arbitrage_opportunity`, with the engine state
(`last_opportunity_time`) passed and returned explicitly and `time.time()`
passed as `now`.  Returns the detected opportunity (or `none`) together
with the updated `last_opportunity_time` map. -/
def check_arbitrage_opportunity (cfg : ArbConfig) (books : Orderbooks)
    (last : LastOppMap) (now : ℚ) (m : Market) :
    Option ArbitrageOpportunity × LastOppMap :=
  match get_best_prices books m.yes_token_id m.no_token_id with
  | none => (none, last)
  | some (yes_ask, no_ask) =>
    if cfg.trigger_threshold ≤ yes_ask + no_ask then (none, last)
    else if (1 - (yes_ask + no_ask)) / (yes_ask + no_ask) < cfg.min_profit_threshold then
      (none, last)
    else if now - ((dictGet last m.condition_id).getD 0) < cfg.opportunity_cooldown then
      (none, last)
    else
      (some (mkOpportunity cfg m yes_ask no_ask now), dictInsert last m.condition_id now)

/-- `ArbitrageEngine.validate_opportunity`, with the current book state
and `time.time()` passed explicitly. -/
def validate_opportunity (cfg : ArbConfig) (books : Orderbooks) (now : ℚ)
    (opp : ArbitrageOpportunity) (max_age_seconds : ℚ) : Bool :=
  if max_age_seconds < now - opp.timestamp then false
  else
    match get_best_prices books opp.market.yes_token_id opp.market.no_token_id with
    | none => false
    | some (yes_ask, no_ask) =>
      if cfg.trigger_threshold ≤ yes_ask + no_ask then false else true

theorem check_some_parts {cfg : ArbConfig} {books : Orderbooks} {last : LastOppMap}
    {now : ℚ} {m : Market} {opp : ArbitrageOpportunity}
    (h : (check_arbitrage_opportunity cfg books last now m).1 = some opp) :
    ∃ ya na, get_best_prices books m.yes_token_id m.no_token_id = some (ya, na) ∧
      opp = mkOpportunity cfg m ya na now ∧
      (check_arbitrage_opportunity cfg books last now m).2 =
        dictInsert last m.condition_id now := by
  unfold check_arbitrage_opportunity at h ⊢
  cases hp : get_best_prices books m.yes_token_id m.no_token_id with
  | none => rw [hp] at h; simp at h
  | some pr =>
    obtain ⟨ya, na⟩ := pr
    rw [hp] at h
    dsimp only at h ⊢
    split_ifs at h ⊢ with h1 h2 h3
    have h' : mkOpportunity cfg m ya na now = opp := by simpa using h
    exact ⟨ya, na, rfl, h'.symm, rfl⟩

/-- Claim C5: if `check_arbitrage_opportunity` detects an opportunity for a
market at time `t`, then a second call for the same market at any time
`t'` with `t' - t < cooldown` returns `None` — for any current book state,
in particular an unchanged one whose prices still pass the threshold and
profit checks. -/
theorem detect_cooldown_idempotent (cfg : ArbConfig) (books books' : Orderbooks)
    (last : LastOppMap) (t t' : ℚ) (m : Market) (opp : ArbitrageOpportunity)
    (h1 : (check_arbitrage_opportunity cfg books last t m).1 = some opp)
    (h2 : t' - t < cfg.opportunity_cooldown) :
    (check_arbitrage_opportunity cfg books'
       (check_arbitrage_opportunity cfg books last t m).2 t' m).1 = none := by
  obtain ⟨ya, na, hp, hopp, hsnd⟩ := check_some_parts h1
  rw [hsnd]
  have hlast : (dictGet (dictInsert last m.condition_id t) m.condition_id).getD 0 = t := by
    rw [dictGet_insert_self]
    rfl
  unfold check_arbitrage_opportunity
  cases hq : get_best_prices books' m.yes_token_id m.no_token_id with
  | none => rfl
  | some pr =>
    obtain ⟨yb, nb⟩ := pr
    dsimp only
    rw [hlast]
    split_ifs with g1 g2
    · rfl
    · rfl
    · rfl

/-- Concrete engine configuration of spec Scenario C
(`trigger_threshold=0.98, min_profit_threshold=0.02`). -/
def cfgC : ArbConfig := ⟨49/50, 1/50, 5, 50⟩

/-- A concrete market for the Scenario C fixtures. -/
def mC : Market := ⟨"cond-c", "yes-c", "no-c", "scenario c market"⟩

/-- Books with best asks `yes=0.47, no=0.49` (Scenario C). -/
def booksC : Orderbooks :=
  [("yes-c", ⟨"yes-c", [], [⟨47/100, 100⟩]⟩),
   ("no-c", ⟨"no-c", [], [⟨49/100, 100⟩]⟩)]

theorem check_eval_cfgC :
    (check_arbitrage_opportunity cfgC booksC [] 10 mC).1 =
      some (mkOpportunity cfgC mC (47/100) (49/100) 10) := by
  have hgp : get_best_prices booksC mC.yes_token_id mC.no_token_id =
      some (47/100, 49/100) := by
    simp [get_best_prices, dictGet, booksC, mC]
  unfold check_arbitrage_opportunity
  rw [hgp]
  norm_num [cfgC, dictGet]

/-- Witness for C5 at Scenario C followed by a repeat two seconds later
(inside the five-second cooldown). -/
theorem detect_cooldown_idempotent_witness :
    (check_arbitrage_opportunity cfgC booksC
       (check_arbitrage_opportunity cfgC booksC [] 10 mC).2 12 mC).1 = none :=
  detect_cooldown_idempotent cfgC booksC booksC [] 10 12 mC
    (mkOpportunity cfgC mC (47/100) (49/100) 10) check_eval_cfgC
    (by norm_num [cfgC])

/-- Claim C10: every opportunity returned by the detector has equal leg
sizes `total_investment / implied_sum`, and the combined cost of both
legs equals `total_investment` exactly. -/
theorem detect_sizing_balanced (cfg : ArbConfig) (books : Orderbooks) (last : LastOppMap)
    (now : ℚ) (m : Market) (opp : ArbitrageOpportunity)
    (h : (check_arbitrage_opportunity cfg books last now m).1 = some opp)
    (hy : 0 < opp.yes_price) (hn : 0 < opp.no_price) :
    opp.yes_size = opp.total_investment / opp.implied_sum ∧
    opp.no_size = opp.total_investment / opp.implied_sum ∧
    opp.yes_size * opp.yes_price + opp.no_size * opp.no_price = opp.total_investment := by
  obtain ⟨ya, na, hp, hopp, -⟩ := check_some_parts h
  subst hopp
  simp only [mkOpportunity] at hy hn ⊢
  have hS : (0:ℚ) < ya + na := by linarith
  have hy' : ya ≠ 0 := ne_of_gt hy
  have hn' : na ≠ 0 := ne_of_gt hn
  have hS' : ya + na ≠ 0 := ne_of_gt hS
  refine ⟨?_, ?_, ?_⟩
  · field_simp
    ring
  · field_simp
    ring
  · field_simp
    ring

/-- Witness for C10 at the Scenario C opportunity. -/
theorem detect_sizing_balanced_witness :
    (mkOpportunity cfgC mC (47/100) (49/100) 10).yes_size =
      (mkOpportunity cfgC mC (47/100) (49/100) 10).total_investment /
        (mkOpportunity cfgC mC (47/100) (49/100) 10).implied_sum ∧
    (mkOpportunity cfgC mC (47/100) (49/100) 10).no_size =
      (mkOpportunity cfgC mC (47/100) (49/100) 10).total_investment /
        (mkOpportunity cfgC mC (47/100) (49/100) 10).implied_sum ∧
    (mkOpportunity cfgC mC (47/100) (49/100) 10).yes_size *
        (mkOpportunity cfgC mC (47/100) (49/100) 10).yes_price +
      (mkOpportunity cfgC mC (47/100) (49/100) 10).no_size *
        (mkOpportunity cfgC mC (47/100) (49/100) 10).no_price =
      (mkOpportunity cfgC mC (47/100) (49/100) 10).total_investment :=
  detect_sizing_balanced cfgC booksC [] 10 mC
    (mkOpportunity cfgC mC (47/100) (49/100) 10) check_eval_cfgC
    (by norm_num [mkOpportunity]) (by norm_num [mkOpportunity])

/-- Claim C3 (amended): `validate_opportunity` returns `True` exactly when
the age is within `max_age_seconds`, both best asks are present, and the
current implied sum is below the trigger threshold.  It re-runs detection
steps 1-2 only: the minimum-profit condition (step 3) is not re-checked. -/
theorem validate_opportunity_no_profit_recheck (cfg : ArbConfig) (books : Orderbooks)
    (now : ℚ) (opp : ArbitrageOpportunity) (max_age_seconds : ℚ) :
    validate_opportunity cfg books now opp max_age_seconds = true ↔
      (now - opp.timestamp ≤ max_age_seconds ∧
       ∃ ya na, get_best_prices books opp.market.yes_token_id opp.market.no_token_id
           = some (ya, na) ∧ ya + na < cfg.trigger_threshold) := by
  unfold validate_opportunity
  split_ifs with hage
  · simp only [Bool.false_eq_true, false_iff]
    rintro ⟨hle, -⟩
    exact absurd hage (not_lt.mpr hle)
  · cases hp : get_best_prices books opp.market.yes_token_id opp.market.no_token_id with
    | none => simp
    | some pr =>
      obtain ⟨ya, na⟩ := pr
      dsimp only
      split_ifs with htr
      · simp only [Bool.false_eq_true, false_iff]
        rintro ⟨-, yb, nb, heq, hlt⟩
        injection heq with heq2
        rw [Prod.mk.injEq] at heq2
        obtain ⟨hya, hna⟩ := heq2
        subst hya
        subst hna
        exact absurd hlt (not_lt.mpr htr)
      · constructor
        · intro _
          exact ⟨le_of_not_lt hage, ya, na, rfl, not_le.mp htr⟩
        · intro _
          rfl

/-- Engine configuration with `trigger_threshold=0.98` and
`min_profit_threshold=0.05` (both constructible through the environment;
the config loader only constrains the trigger to `[0.5, 1]`). -/
def cfgV : ArbConfig := ⟨49/50, 1/20, 5, 50⟩

/-- A concrete market for the revalidation counterexample. -/
def mV : Market := ⟨"cond-v", "yes-v", "no-v", "revalidation market"⟩

/-- Books whose current best asks sum to `0.97`: below the trigger, but
with profit `(1-0.97)/0.97 = 3/97 < 0.05`. -/
def booksV : Orderbooks :=
  [("yes-v", ⟨"yes-v", [], [⟨1/2, 100⟩]⟩),
   ("no-v", ⟨"no-v", [], [⟨47/100, 100⟩]⟩)]

/-- A fresh opportunity (age zero) for the revalidation counterexample. -/
def oppV : ArbitrageOpportunity := mkOpportunity cfgV mV (1/2) (47/100) 0

/-- Counterexample to claim C3 as stated: at current asks `0.50 + 0.47`,
the current profit percentage `3/97` is below `min_profit_threshold=0.05`,
so the claim requires `validate_opportunity` to return `False`; the code
returns `True` because it never re-checks the profit threshold. -/
theorem validate_opportunity_claim_counterexample :
    validate_opportunity cfgV booksV 0 oppV 2 = true ∧
    get_best_prices booksV oppV.market.yes_token_id oppV.market.no_token_id =
      some (1/2, 47/100) ∧
    (1 - (1/2 + 47/100)) / (1/2 + 47/100) < cfgV.min_profit_threshold := by
  have hgp : get_best_prices booksV oppV.market.yes_token_id oppV.market.no_token_id =
      some (1/2, 47/100) := by
    simp [get_best_prices, dictGet, booksV, oppV, mkOpportunity, mV]
  refine ⟨?_, hgp, by norm_num [cfgV]⟩
  unfold validate_opportunity
  rw [hgp]
  norm_num [oppV, mkOpportunity, cfgV]

/-! ### WebSocket message handling (`src/websocket_manager.py`) -/

/-- A raw JSON scalar as seen by the handler: either a value `float()`
can parse, or garbage (`empty` records whether the underlying string is
empty, which is the only case Python treats as falsy). -/
inductive RawVal where
  | num (q : ℚ)
  | garbage (empty : Bool)
deriving DecidableEq

/-- Python truthiness of the raw value. -/
def pyTruthy : RawVal → Bool
  | .num _ => true
  | .garbage e => !e

/-- Python `float(...)`: the parsed value, or `none` when it raises
`ValueError`. -/
def pyFloat : RawVal → Option ℚ
  | .num q => some q
  | .garbage _ => none

/-- One entry of a `bids`/`asks` list in a `book` frame; `none` fields
model missing keys (a `KeyError` in `_parse_orders`). -/
structure RawOrder where
  price : Option RawVal
  size : Option RawVal
deriving DecidableEq

/-- One entry of `price_changes` in a `price_change` frame; `none`
models an absent key (Python `change.get(...)` returning `None`). -/
structure RawChange where
  asset_id : String
  best_bid : Option RawVal
  best_ask : Option RawVal
  size : Option RawVal
deriving DecidableEq

/-- An incoming frame after `json.loads`: `malformed` stands for input
on which `json.loads` raises `JSONDecodeError`. -/
inductive WsMessage where
  | malformed
  | book (asset_id market : String) (bids asks : List RawOrder)
  | priceChange (market : String) (changes : List RawChange)
  | lastTradePrice
  | tickSizeChange
  | unknown
deriving DecidableEq

/-- `OrderbookSnapshot._parse_orders` on one order: fails on a missing
key or an unparseable `float`. -/
def parseOrder (o : RawOrder) : Option OrderLevel :=
  match o.price, o.size with
  | some p, some s =>
    match pyFloat p, pyFloat s with
    | some pq, some sq => some ⟨pq, sq⟩
    | _, _ => none
  | _, _ => none

/-- `OrderbookSnapshot._parse_orders`: the whole list, failing if any
entry fails (the comprehension raises at the first bad order). -/
def parseOrders : List RawOrder → Option (List OrderLevel)
  | [] => some []
  | o :: t =>
    match parseOrder o, parseOrders t with
    | some l, some ls => some (l :: ls)
    | _, _ => none

/-- `WebSocketManager._handle_book_event`: builds the snapshot and caches
it; the boolean reports whether an exception was raised (and caught in
`_handle_message`), in which case the cache is unchanged. -/
def handle_book_event (books : Orderbooks) (asset_id : String)
    (bids asks : List RawOrder) : Orderbooks × Bool :=
  match parseOrders bids, parseOrders asks with
  | some bs, some asksParsed =>
    (dictInsert books asset_id ⟨asset_id, bs, asksParsed⟩, false)
  | _, _ => (books, true)

/-- The single-level list built for one side of the synthesized
`price_change` snapshot: at most one price, kept only if positive. -/
def sideLevels (prices : List ℚ) (sz : RawVal) : Option (List OrderLevel) :=
  match prices with
  | [] => some []
  | p :: _ =>
    match pyFloat sz with
    | some s => some [⟨p, s⟩]
    | none => none

/-- One iteration of the `price_changes` loop in
`_handle_price_change_event`: builds `event_data` (evaluating
`float(best_bid)`/`float(best_ask)`, which may raise), parses the
synthesized snapshot (evaluating `float(size)` for each non-empty side)
and caches it; `ValueError`/`TypeError` is caught per change, leaving
that asset's cached book unchanged (boolean = an exception was raised). -/
def handle_one_change (books : Orderbooks) (c : RawChange) : Orderbooks × Bool :=
  match c.best_bid, c.best_ask with
  | some bb, some ba =>
    let sz := c.size.getD (RawVal.num 100)
    match (if pyTruthy bb then (pyFloat bb).map (fun q => if 0 < q then [q] else []) else some []) with
    | none => (books, true)
    | some bidPrices =>
      match (if pyTruthy ba then (pyFloat ba).map (fun q => if 0 < q then [q] else []) else some []) with
      | none => (books, true)
      | some askPrices =>
        match sideLevels bidPrices sz, sideLevels askPrices sz with
        | some bl, some al => (dictInsert books c.asset_id ⟨c.asset_id, bl, al⟩, false)
        | _, _ => (books, true)
  | _, _ => (books, false)

/-- `WebSocketManager._handle_price_change_event`: the loop over
`price_changes` (each change is tried independently). -/
def handle_price_change (books : Orderbooks) (changes : List RawChange) :
    Orderbooks × Bool :=
  changes.foldl
    (fun acc c =>
      let r := handle_one_change acc.1 c
      (r.1, acc.2 || r.2))
    (books, false)

/-- `WebSocketManager._handle_message`: dispatch by `event_type`; every
exception is caught here or deeper, so the function is total.  The
boolean reports whether any exception was raised while decoding or
handling the message. -/
def handle_message (books : Orderbooks) (msg : WsMessage) : Orderbooks × Bool :=
  match msg with
  | .malformed => (books, true)
  | .book asset_id _ bids asks => handle_book_event books asset_id bids asks
  | .priceChange _ changes => handle_price_change books changes
  | .lastTradePrice => (books, false)
  | .tickSizeChange => (books, false)
  | .unknown => (books, false)

theorem handle_book_event_spec (books : Orderbooks) (aid : String)
    (bids asks : List RawOrder) :
    (handle_book_event books aid bids asks).1 = books ∨
      (handle_book_event books aid bids asks).2 = false := by
  unfold handle_book_event
  cases parseOrders bids with
  | none => left; rfl
  | some bs =>
    cases parseOrders asks with
    | none => left; rfl
    | some asksParsed => right; rfl

theorem handle_one_change_spec (books : Orderbooks) (c : RawChange) :
    (handle_one_change books c).1 = books ∨ (handle_one_change books c).2 = false := by
  obtain ⟨aid, bb, ba, sz⟩ := c
  unfold handle_one_change
  cases bb with
  | none => right; rfl
  | some bbv =>
    cases ba with
    | none => right; rfl
    | some bav =>
      try dsimp only
      cases (if pyTruthy bbv then (pyFloat bbv).map (fun q => if 0 < q then [q] else []) else some []) with
      | none => left; rfl
      | some bp =>
        try dsimp only
        cases (if pyTruthy bav then (pyFloat bav).map (fun q => if 0 < q then [q] else []) else some []) with
        | none => left; rfl
        | some ap =>
          try dsimp only
          cases sideLevels bp (sz.getD (RawVal.num 100)) with
          | none => left; rfl
          | some bl =>
            try dsimp only
            cases sideLevels ap (sz.getD (RawVal.num 100)) with
            | none => left; rfl
            | some al => right; rfl

/-- Claim C9 (amended): a message that fails JSON decoding leaves the
cached orderbook map untouched; a `book` event whose snapshot fails to
parse leaves the map untouched; and a failing entry of a `price_change`
event leaves its asset's cached book untouched.  No exception escapes
`_handle_message` (the embedded handler is total and reports caught
exceptions in its boolean component).  The original claim's stronger
whole-map guarantee fails for multi-entry `price_change` messages, whose
earlier successful entries persist (see the counterexample). -/
theorem handle_message_atomicity_amended :
    (∀ books : Orderbooks, handle_message books WsMessage.malformed = (books, true)) ∧
    (∀ (books : Orderbooks) (aid mkt : String) (bids asks : List RawOrder),
       (handle_message books (WsMessage.book aid mkt bids asks)).2 = true →
       (handle_message books (WsMessage.book aid mkt bids asks)).1 = books) ∧
    (∀ (books : Orderbooks) (c : RawChange),
       (handle_one_change books c).2 = true →
       (handle_one_change books c).1 = books) := by
  refine ⟨fun books => rfl, ?_, ?_⟩
  · intro books aid mkt bids asks h
    have hmsg : handle_message books (WsMessage.book aid mkt bids asks) =
        handle_book_event books aid bids asks := rfl
    rw [hmsg] at h ⊢
    rcases handle_book_event_spec books aid bids asks with h1 | h2
    · exact h1
    · exact Bool.noConfusion (h.symm.trans h2)
  · intro books c h
    rcases handle_one_change_spec books c with h1 | h2
    · exact h1
    · exact Bool.noConfusion (h.symm.trans h2)

/-- A cached book for asset `asset-a`, present before the message. -/
def booksP : Orderbooks := [("asset-a", ⟨"asset-a", [⟨2/5, 10⟩], [⟨1/2, 10⟩]⟩)]

/-- A well-formed `price_change` entry for `asset-a`. -/
def goodChange : RawChange :=
  ⟨"asset-a", some (.num (45/100)), some (.num (11/20)), some (.num 10)⟩

/-- A `price_change` entry for `asset-b` whose `size` is an unparseable
string: `float(size_str)` raises `ValueError` inside `_parse_orders`. -/
def badChange : RawChange :=
  ⟨"asset-b", some (.num (1/2)), some (.num (3/5)), some (.garbage false)⟩

/-- A `price_change` message whose first entry succeeds and whose second
entry raises while being handled. -/
def msgPC : WsMessage := .priceChange "mkt" [goodChange, badChange]

/-- A `book` frame order with an unparseable price. -/
def badOrder : RawOrder := ⟨some (.garbage false), some (.num 10)⟩

/-- Witness for C9's amended theorem: a malformed frame, a `book` frame
with an unparseable order, and a failing `price_change` entry each leave
the prior cache `booksP` unchanged. -/
theorem handle_message_atomicity_amended_witness :
    handle_message booksP WsMessage.malformed = (booksP, true) ∧
    (handle_message booksP (WsMessage.book "asset-p" "m" [badOrder] [])).1 = booksP ∧
    (handle_one_change booksP badChange).1 = booksP :=
  ⟨handle_message_atomicity_amended.1 booksP,
   handle_message_atomicity_amended.2.1 booksP "asset-p" "m" [badOrder] [] (by rfl),
   handle_message_atomicity_amended.2.2 booksP badChange
     (by norm_num [handle_one_change, pyTruthy, pyFloat, sideLevels, badChange])⟩

/-- Counterexample to claim C9 as stated: handling `msgPC` raises (and
catches) an exception on its second entry, yet the cached map is not
left as it was — the first entry's update to `asset-a` persists. -/
theorem handle_message_claim_counterexample :
    (handle_message booksP msgPC).2 = true ∧
    (handle_message booksP msgPC).1 ≠ booksP := by
  have heval : handle_message booksP msgPC =
      ([("asset-a", ⟨"asset-a", [⟨45/100, 10⟩], [⟨11/20, 10⟩]⟩)], true) := by
    norm_num [handle_message, handle_price_change, handle_one_change, goodChange, badChange,
      msgPC, booksP, pyTruthy, pyFloat, sideLevels, dictInsert]
  rw [heval]
  refine ⟨rfl, ?_⟩
  norm_num [booksP]

/-! ### Subscription handling (`WebSocketManager.subscribe_to_markets`) -/

/-- The subscription fields of `WebSocketManager`. -/
structure WsSubState where
  subscribed_assets : List String
  subscribed_markets : List String
deriving DecidableEq

/-- The `asset_ids` list collected from the markets (Python truthiness:
an id is appended when the string is non-empty). -/
def collectAssetIds (markets : List Market) : List String :=
  markets.foldr
    (fun m acc =>
      (if m.yes_token_id ≠ "" then [m.yes_token_id] else []) ++
      (if m.no_token_id ≠ "" then [m.no_token_id] else []) ++ acc) []

/-- The `market_ids` list collected from the markets. -/
def collectMarketIds (markets : List Market) : List String :=
  markets.foldr
    (fun m acc => (if m.condition_id ≠ "" then [m.condition_id] else []) ++ acc) []

/-- `WebSocketManager.subscribe_to_markets` (send assumed to succeed):
returns the new subscription state and the `assets_ids` of the subscribe
frame that is sent.  The previous state `st` is overwritten. -/
def subscribe_to_markets (max_ws_subscriptions : ℕ) (st : WsSubState)
    (markets : List Market) : WsSubState × List String :=
  let asset_ids := collectAssetIds markets
  let market_ids := collectMarketIds markets
  if max_ws_subscriptions * 2 < asset_ids.length then
    (⟨asset_ids.take (max_ws_subscriptions * 2), market_ids.take max_ws_subscriptions⟩,
     asset_ids.take (max_ws_subscriptions * 2))
  else
    (⟨asset_ids, market_ids⟩, asset_ids)

/-- A first market to subscribe to. -/
def mA : Market := ⟨"cond-a", "yes-a", "no-a", "market a"⟩

/-- A second market to subscribe to. -/
def mB : Market := ⟨"cond-b", "yes-b", "no-b", "market b"⟩

/-- Claim C4 (amended): `subscribe_to_markets` replaces the subscription
set with the newest request — the result is independent of the previous
state, so successive calls do not merge — and the stored asset list never
exceeds twice the configured market cap (the oversize part is dropped
with only a logged warning; the call raises no error). -/
theorem subscribe_replaces_and_truncates (cap : ℕ) (st st' : WsSubState)
    (markets : List Market) :
    subscribe_to_markets cap st markets = subscribe_to_markets cap st' markets ∧
    ((subscribe_to_markets cap st markets).1.subscribed_assets).length ≤ cap * 2 := by
  refine ⟨rfl, ?_⟩
  unfold subscribe_to_markets
  dsimp only
  split_ifs with h
  · simp [min_le_left]
  · exact le_of_not_lt h

/-- Counterexample to claim C4 as stated: after `subscribe([mA])` then
`subscribe([mB])` the subscription set holds only `mB`'s assets — `mA`'s
assets are dropped, where the claim requires the union. -/
theorem subscribe_merge_claim_counterexample :
    ((subscribe_to_markets 50 (subscribe_to_markets 50 ⟨[], []⟩ [mA]).1 [mB]).1).subscribed_assets
      = ["yes-b", "no-b"] ∧
    "yes-a" ∉ ((subscribe_to_markets 50 (subscribe_to_markets 50 ⟨[], []⟩ [mA]).1 [mB]).1).subscribed_assets := by
  constructor
  · simp [subscribe_to_markets, collectAssetIds, collectMarketIds, mA, mB]
  · simp [subscribe_to_markets, collectAssetIds, collectMarketIds, mA, mB]

/-! ### The receive loop (`WebSocketManager.listen`) -/

/-- Frames the loop can send. -/
inductive Frame where
  | subscribeFrame (assets : List String)
  | pingFrame
deriving DecidableEq

/-- Observable actions of one loop iteration. -/
inductive ListenAct where
  | doConnect
  | sendFrame (f : Frame)
  | sleep (d : ℚ)
  | dispatch
deriving DecidableEq

/-- What `recv` does when the connection is open: times out, yields a
message, or raises `ConnectionClosed` because the transport closed. -/
inductive RecvOutcome where
  | rtimeout
  | rclosed
  | rmessage
deriving DecidableEq

/-- The environment of one iteration: whether a `connect()` attempt
succeeds, whether the keepalive interval has elapsed, and the `recv`
outcome. -/
structure ListenEnv where
  connect_succeeds : Bool
  ping_due : Bool
  recv : RecvOutcome
deriving DecidableEq

/-- The loop state: `wsConn = none` models `self.ws is None`,
`some b` models a connection object whose transport is open iff `b`;
plus `_running`, `subscribed_assets` and the local `reconnect_delay`. -/
structure ListenState where
  wsConn : Option Bool
  running : Bool
  subscribed_assets : List String
  reconnect_delay : ℚ
deriving DecidableEq

/-- `WebSocketManager._reconnect_delay` (initial backoff). -/
def RECONNECT_DELAY_INIT : ℚ := 5

/-- `WebSocketManager._max_reconnect_delay` (backoff cap). -/
def MAX_RECONNECT_DELAY : ℚ := 60

/-- The keepalive-and-receive part of one `listen` iteration.  A ping is
sent only on an open connection (on a closed one `send` raises and the
inner handler passes).  `recv` on a closed connection raises
`ConnectionClosed` immediately: the handler sleeps for the current
backoff and doubles it, leaving `self.ws` untouched. -/
def listen_recv (s : ListenState) (env : ListenEnv) (acts : List ListenAct) :
    ListenState × List ListenAct :=
  let pingActs :=
    if env.ping_due = true ∧ s.wsConn = some true then [ListenAct.sendFrame Frame.pingFrame]
    else []
  match s.wsConn with
  | some true =>
    match env.recv with
    | .rtimeout => (s, acts ++ pingActs)
    | .rmessage =>
      (⟨s.wsConn, s.running, s.subscribed_assets, RECONNECT_DELAY_INIT⟩,
       acts ++ pingActs ++ [ListenAct.dispatch])
    | .rclosed =>
      (⟨some false, s.running, s.subscribed_assets,
         min (s.reconnect_delay * 2) MAX_RECONNECT_DELAY⟩,
       acts ++ pingActs ++ [ListenAct.sleep s.reconnect_delay])
  | some false =>
    (⟨some false, s.running, s.subscribed_assets,
       min (s.reconnect_delay * 2) MAX_RECONNECT_DELAY⟩,
     acts ++ [ListenAct.sleep s.reconnect_delay])
  | none => (s, acts)

/-- One iteration of the `while self._running` loop in
`WebSocketManager.listen`.  The reconnect-and-resubscribe block runs
only when `self.ws is None`; a failed connect is caught by the outer
handler, which sleeps without touching the state. -/
def listen_step (s : ListenState) (env : ListenEnv) : ListenState × List ListenAct :=
  if s.running = true then
    match s.wsConn with
    | none =>
      if env.connect_succeeds then
        listen_recv ⟨some true, s.running, s.subscribed_assets, s.reconnect_delay⟩ env
          ([ListenAct.doConnect] ++
            (if s.subscribed_assets ≠ [] then
              [ListenAct.sendFrame (Frame.subscribeFrame s.subscribed_assets)]
            else []))
      else
        (s, [ListenAct.sleep s.reconnect_delay])
    | some _ => listen_recv s env []
  else (s, [])

/-- Iterated loop: runs one `listen_step` per environment, collecting
all emitted actions. -/
def listen_run (s : ListenState) : List ListenEnv → ListenState × List ListenAct
  | [] => (s, [])
  | e :: es =>
    let r := listen_step s e
    let rest := listen_run r.1 es
    (rest.1, r.2 ++ rest.2)

/-- Recognizes a backoff sleep — the only action the loop performs once
its connection object is closed. -/
def isSleepAct : ListenAct → Bool
  | .sleep _ => true
  | _ => false

theorem listen_step_closed_stuck (s : ListenState) (env : ListenEnv)
    (hws : s.wsConn = some false) (hr : s.running = true) :
    (listen_step s env).1.wsConn = some false ∧
    (listen_step s env).1.running = true ∧
    (listen_step s env).2 = [ListenAct.sleep s.reconnect_delay] := by
  simp [listen_step, listen_recv, hws, hr]

/-- Claim C2, evaluated on the code: once the transport has closed while
`stop()` was not called (`wsConn = some false`, `running = true`), every
subsequent iteration of `listen` only sleeps — `self.ws` is never reset,
so the `if not self.ws` reconnect-and-resubscribe block is unreachable:
no connect is attempted, no subscribe frame is resent, and no message is
ever dispatched again, contradicting the claimed reconnection. -/
theorem listen_never_reconnects (s : ListenState) (envs : List ListenEnv)
    (hws : s.wsConn = some false) (hr : s.running = true) :
    (listen_run s envs).1.wsConn = some false ∧
    ((listen_run s envs).2.all isSleepAct) = true := by
  induction envs generalizing s with
  | nil => exact ⟨hws, rfl⟩
  | cons e es ih =>
    obtain ⟨h1, h2, h3⟩ := listen_step_closed_stuck s e hws hr
    unfold listen_run
    dsimp only
    obtain ⟨ih1, ih2⟩ := ih (listen_step s e).1 h1 h2
    refine ⟨ih1, ?_⟩
    rw [List.all_append, h3, ih2]
    simp [isSleepAct]

/-- A state where the transport just closed mid-stream: subscriptions
exist, `stop()` was not called. -/
def sClosed : ListenState := ⟨some false, true, ["asset-x"], 5⟩

/-- An arbitrary follow-up environment (connects would succeed, a ping
is due, a message would be available). -/
def envAny : ListenEnv := ⟨true, true, .rmessage⟩

/-- Witness for C2's theorem: three loop iterations after the close
leave the connection closed and emit only sleeps. -/
theorem listen_never_reconnects_witness :
    (listen_run sClosed [envAny, envAny, envAny]).1.wsConn = some false ∧
    ((listen_run sClosed [envAny, envAny, envAny]).2.all isSleepAct) = true :=
  listen_never_reconnects sClosed [envAny, envAny, envAny] rfl rfl

/-! ### SimulatedTradeLogger (`src/mm_simulated_trade_logger.py`) -/

/-- `Literal["BUY", "SELL"]`. -/
inductive TradeAction where
  | BUY
  | SELL
deriving DecidableEq

/-- The CSV text of the action. -/
def actionText : TradeAction → String
  | .BUY => "BUY"
  | .SELL => "SELL"

/-- The `Trade` dataclass. -/
structure Trade where
  timestamp : String
  action : TradeAction
  market_question : String
  condition_id : String
  price : ℚ
  size : ℤ
  cost : ℚ
  inventory_after : ℤ
  pnl : ℚ
  cumulative_pnl : ℚ
deriving DecidableEq

/-- The mutable state of `SimulatedTradeLogger`. -/
structure LoggerState where
  inventories : List (String × ℤ)
  avg_buy_prices : List (String × ℚ)
  cumulative_pnl : ℚ
  total_trades : ℤ
deriving DecidableEq

/-- `SimulatedTradeLogger.simulate_fill`, with `datetime.now().isoformat()`
passed as `ts`.  Returns the updated state and the `Trade` record
(`cost` is signed: positive for BUY, negated for SELL). -/
def simulate_fill (st : LoggerState) (ts : String) (action : TradeAction)
    (market_question condition_id : String) (price : ℚ) (size : ℤ) :
    LoggerState × Trade :=
  let current_inventory := (dictGet st.inventories condition_id).getD 0
  let cost := price * (size : ℚ)
  match action with
  | .BUY =>
    let avgNew :=
      if 0 < current_inventory then
        let old_avg := (dictGet st.avg_buy_prices condition_id).getD price
        let total_cost := old_avg * (current_inventory : ℚ) + cost
        dictInsert st.avg_buy_prices condition_id (total_cost / ((current_inventory + size : ℤ) : ℚ))
      else
        dictInsert st.avg_buy_prices condition_id price
    let new_inventory := current_inventory + size
    let pnl : ℚ := 0
    let cum := st.cumulative_pnl + pnl
    (⟨dictInsert st.inventories condition_id new_inventory, avgNew, cum, st.total_trades + 1⟩,
     ⟨ts, .BUY, market_question, condition_id, price, size, cost, new_inventory, pnl, cum⟩)
  | .SELL =>
    let avg_buy_price := (dictGet st.avg_buy_prices condition_id).getD price
    let pnl := (price - avg_buy_price) * (size : ℚ)
    let new_inventory := current_inventory - size
    let avgNew :=
      if new_inventory ≤ 0 then dictRemove st.avg_buy_prices condition_id
      else st.avg_buy_prices
    let cum := st.cumulative_pnl + pnl
    (⟨dictInsert st.inventories condition_id new_inventory, avgNew, cum, st.total_trades + 1⟩,
     ⟨ts, .SELL, market_question, condition_id, price, size, -cost, new_inventory, pnl, cum⟩)

/-- One CSV cell as written by `csv.writer`: plain text, `str(int)`, or a
fixed-precision decimal rendering whose exact value is recorded. -/
inductive Cell where
  | text (v : String)
  | intCell (v : ℤ)
  | decCell (v : ℚ)
deriving DecidableEq

/-- The header row written by `SimulatedTradeLogger._initialize_csv`. -/
def headers : List String :=
  ["timestamp", "action", "market_question", "condition_id", "price",
   "size", "cost", "inventory_after", "pnl", "cumulative_pnl"]

/-- The row appended by `SimulatedTradeLogger._save_trade`: price is
formatted with 4 decimals, the money fields with 2. -/
def save_trade_row (t : Trade) : List Cell :=
  [Cell.text t.timestamp, Cell.text (actionText t.action), Cell.text t.market_question,
   Cell.text t.condition_id, Cell.decCell (roundTo 4 t.price), Cell.intCell t.size,
   Cell.decCell (roundTo 2 t.cost), Cell.intCell t.inventory_after,
   Cell.decCell (roundTo 2 t.pnl), Cell.decCell (roundTo 2 t.cumulative_pnl)]

/-- Python `float(cell)` as used by `_load_existing_trades`. -/
def parseFloatCell : Cell → Option ℚ
  | .decCell v => some v
  | .intCell z => some (z : ℚ)
  | .text _ => none

/-- Python `int(cell)` as used by `_load_existing_trades`. -/
def parseIntCell : Cell → Option ℤ
  | .intCell z => some z
  | _ => none

/-- Parsing the numeric fields (price, size, cost, inventory_after, pnl,
cumulative_pnl) back from a ledger row. -/
def rowNumericFields (row : List Cell) : Option (ℚ × ℤ × ℚ × ℤ × ℚ × ℚ) :=
  match row with
  | [_, _, _, _, p, s, c, ia, pn, cp] =>
    match parseFloatCell p, parseIntCell s, parseFloatCell c, parseIntCell ia,
          parseFloatCell pn, parseFloatCell cp with
    | some pv, some sv, some cv, some iav, some pnv, some cpv =>
      some (pv, sv, cv, iav, pnv, cpv)
    | _, _, _, _, _, _ => none
  | _ => none

/-- The cell a header name denotes for a given trade. -/
def cellOfField (h : String) (t : Trade) : Cell :=
  if h = "timestamp" then .text t.timestamp
  else if h = "action" then .text (actionText t.action)
  else if h = "market_question" then .text t.market_question
  else if h = "condition_id" then .text t.condition_id
  else if h = "price" then .decCell (roundTo 4 t.price)
  else if h = "size" then .intCell t.size
  else if h = "cost" then .decCell (roundTo 2 t.cost)
  else if h = "inventory_after" then .intCell t.inventory_after
  else if h = "pnl" then .decCell (roundTo 2 t.pnl)
  else if h = "cumulative_pnl" then .decCell (roundTo 2 t.cumulative_pnl)
  else .text ""

/-- Claim C7 (amended): every appended ledger row carries, in header
order, exactly the ten fields named by the header written at file
creation — timestamp, action, market_question, condition_id, price,
size, signed cost, inventory_after, pnl, cumulative_pnl — and the cost
field of a simulated fill is nonnegative for BUY and nonpositive for
SELL.  The original claim's nine-field list is off by one: the row holds
both the market question and the condition id. -/
theorem ledger_row_matches_headers :
    (∀ t : Trade, save_trade_row t = headers.map (fun h => cellOfField h t)) ∧
    (∀ (st : LoggerState) (ts q cid : String) (price : ℚ) (size : ℤ),
       0 ≤ price → 0 ≤ size →
       0 ≤ ((simulate_fill st ts TradeAction.BUY q cid price size).2).cost ∧
       ((simulate_fill st ts TradeAction.SELL q cid price size).2).cost ≤ 0) := by
  constructor
  · intro t
    simp [save_trade_row, headers, cellOfField]
  · intro st ts q cid price size hp hs
    have hq : (0 : ℚ) ≤ price * (size : ℚ) :=
      mul_nonneg hp (by exact_mod_cast hs)
    constructor
    · simpa [simulate_fill] using hq
    · simp [simulate_fill]
      linarith

/-- The trade produced by a first simulated BUY fill at price `0.45`,
size 10, on a fresh logger. -/
def tSample : Trade :=
  (simulate_fill ⟨[], [], 0, 0⟩ "t0" TradeAction.BUY "what market" "cond-x" (45/100) 10).2

/-- Witness for C7's amended theorem at the sample fill. -/
theorem ledger_row_matches_headers_witness :
    save_trade_row tSample = headers.map (fun h => cellOfField h tSample) ∧
    0 ≤ ((simulate_fill ⟨[], [], 0, 0⟩ "t0" TradeAction.BUY "what market" "cond-x" (45/100) 10).2).cost ∧
    ((simulate_fill ⟨[], [], 0, 0⟩ "t0" TradeAction.SELL "what market" "cond-x" (45/100) 10).2).cost ≤ 0 :=
  ⟨ledger_row_matches_headers.1 tSample,
   (ledger_row_matches_headers.2 ⟨[], [], 0, 0⟩ "t0" "what market" "cond-x" (45/100) 10
     (by norm_num) (by norm_num)).1,
   (ledger_row_matches_headers.2 ⟨[], [], 0, 0⟩ "t0" "what market" "cond-x" (45/100) 10
     (by norm_num) (by norm_num)).2⟩

/-- Counterexample to claim C7 as stated: the ledger rows have ten
fields, not the nine the claim enumerates, and the third field is the
market question — a field absent from the claimed list — rather than
the market id. -/
theorem ledger_field_count_counterexample :
    headers.length = 10 ∧ (save_trade_row tSample).length = 10 ∧
    (save_trade_row tSample).get? 2 = some (Cell.text "what market") :=
  ⟨rfl, rfl, rfl⟩

/-- Claim C8 (amended): serializing a trade to a ledger row and parsing
it back yields the numeric fields rounded by the output formatting
(price to 4 decimals, the money fields to 2); the round-trip is the
identity exactly on trades whose numeric fields already carry at most
that precision. -/
theorem ledger_roundtrip_amended (t : Trade)
    (h4 : roundTo 4 t.price = t.price) (hc : roundTo 2 t.cost = t.cost)
    (hpn : roundTo 2 t.pnl = t.pnl) (hcp : roundTo 2 t.cumulative_pnl = t.cumulative_pnl) :
    rowNumericFields (save_trade_row t) =
      some (t.price, t.size, t.cost, t.inventory_after, t.pnl, t.cumulative_pnl) := by
  simp [rowNumericFields, save_trade_row, parseFloatCell, parseIntCell, h4, hc, hpn, hcp]

/-- Witness for C8's amended theorem at the sample fill (price `0.45`,
cost `4.50`: all fields within the output precision). -/
theorem ledger_roundtrip_amended_witness :
    rowNumericFields (save_trade_row tSample) =
      some (tSample.price, tSample.size, tSample.cost, tSample.inventory_after,
        tSample.pnl, tSample.cumulative_pnl) :=
  ledger_roundtrip_amended tSample
    (by
      have h : tSample.price = 45/100 := rfl
      rw [h]
      norm_num [roundTo, roundHalfEven])
    (by
      have h : tSample.cost = 45/100 * ((10 : ℤ) : ℚ) := rfl
      rw [h]
      norm_num [roundTo, roundHalfEven])
    (by
      have h : tSample.pnl = 0 := rfl
      rw [h]
      norm_num [roundTo, roundHalfEven])
    (by
      have h : tSample.cumulative_pnl = 0 + 0 := rfl
      rw [h]
      norm_num [roundTo, roundHalfEven])

/-- The trade of a simulated BUY fill at price `0.4567`, size 10: its
cost `4.567` needs three decimals. -/
def tBad : Trade :=
  (simulate_fill ⟨[], [], 0, 0⟩ "t1" TradeAction.BUY "m" "cond-y" (4567/10000) 10).2

/-- Counterexample to claim C8 as stated: the fill at price `0.4567`,
size 10 has cost `4.567`, which the two-decimal formatting turns into
`4.57`, so parsing the serialized row does not reproduce the in-memory
numeric fields. -/
theorem ledger_roundtrip_claim_counterexample :
    rowNumericFields (save_trade_row tBad) ≠
      some (tBad.price, tBad.size, tBad.cost, tBad.inventory_after, tBad.pnl, tBad.cumulative_pnl) := by
  norm_num [tBad, simulate_fill, dictGet, dictInsert, save_trade_row, rowNumericFields,
    parseFloatCell, parseIntCell, roundTo, roundHalfEven, actionText]
